import Mathlib

/-!
Verification of the INPI gazette extraction-and-filtering pipeline
(`processador_inpi.py`): class normalization, XML record extraction and
the class/keyword filter engine, embedded shallowly over `List Char`
string primitives so that every definition evaluates by kernel reduction.
-/

namespace RevistaInpi

/-! ## String primitives (Python `str` operations on ASCII data) -/

/-- Python `str.strip()` on a character list: drop whitespace at both ends. -/
def pyStripL (l : List Char) : List Char :=
  ((l.dropWhile Char.isWhitespace).reverse.dropWhile Char.isWhitespace).reverse

/-- Python `str.strip()`. -/
def pyStrip (s : String) : String := ⟨pyStripL s.data⟩

/-- Python `str.lower()` (ASCII). -/
def pyLower (s : String) : String := ⟨s.data.map Char.toLower⟩

/-- Python `str.isdigit()`: non-empty and all characters decimal digits. -/
def isDigitStringL (l : List Char) : Bool := !l.isEmpty && l.all Char.isDigit

/-- Python `str.isdigit()`. -/
def isDigitString (s : String) : Bool := isDigitStringL s.data

/-- Decimal value of a digit string, `int(s)` for an all-digit `s`. -/
def digitsToNatL (l : List Char) : Nat :=
  l.foldl (fun a c => a * 10 + (c.toNat - 48)) 0

/-- Decimal value of a digit string. -/
def digitsToNat (s : String) : Nat := digitsToNatL s.data

/-- Leading-zero stripping on a digit list; `[]` maps to `['0']`.
For an all-digit string `s` this is exactly Python's `str(int(s))`. -/
def stripZerosL (l : List Char) : List Char :=
  match l.dropWhile (fun c => c == '0') with
  | [] => ['0']
  | t => t

/-- Python `str(int(s))` for an all-digit string `s`. -/
def pyIntStr (s : String) : String := ⟨stripZerosL s.data⟩

/-- First maximal contiguous digit run of a character list,
`re.search(r'\d+', s)`. -/
def firstRunL : List Char → Option (List Char)
  | [] => none
  | c :: cs =>
    if c.isDigit then some (c :: cs.takeWhile Char.isDigit) else firstRunL cs

/-- First maximal contiguous digit run, `re.search(r'\d+', s)`. -/
def firstDigitRun (s : String) : Option String :=
  (firstRunL s.data).map fun l => ⟨l⟩

/-- `pat` is a leading segment of `hay`. -/
def segAtHead : List Char → List Char → Bool
  | [], _ => true
  | _ :: _, [] => false
  | a :: as, b :: bs => a == b && segAtHead as bs

/-- `pat` occurs as a contiguous segment somewhere in `hay`. -/
def containsL (pat : List Char) : List Char → Bool
  | [] => segAtHead pat []
  | b :: t => segAtHead pat (b :: t) || containsL pat t

/-- Python `pat in hay` substring test. -/
def strContains (hay pat : String) : Bool := containsL pat.data hay.data

/-! ## Class Normalizer

`extrair_classe` is the inner function of `ProcessadorINPI.normalizar_classes`;
`normalizar_valor_classe` is the (textually identical) inner function of
`ProcessadorINPI.filtrar_por_classes`. Both operate on string cells, so the
`pd.isna` branch of the source is unreachable and omitted. -/

/-- `valor_str.lower() in ['n/a', 'nan', 'none', '']`. -/
def isNullToken (s : String) : Bool :=
  pyLower s == "n/a" || pyLower s == "nan" || pyLower s == "none" || pyLower s == ""

/-- Inner `extrair_classe` of `normalizar_classes` (processador_inpi.py:298-314). -/
def extrair_classe (valor : String) : Option String :=
  let valorStr := pyStrip valor
  if isNullToken valorStr then none
  else if isDigitString valorStr then some (pyIntStr valorStr)
  else
    match firstDigitRun valorStr with
    | some run =>
      let num := digitsToNat run
      if 1 ≤ num && num ≤ 45 then some (pyIntStr run) else some valorStr
    | none => some valorStr

/-- Inner `normalizar_valor_classe` of `filtrar_por_classes`
(processador_inpi.py:387-404); its source body is identical to
`extrair_classe`. -/
def normalizar_valor_classe (valor : String) : Option String :=
  let valorStr := pyStrip valor
  if isNullToken valorStr then none
  else if isDigitString valorStr then some (pyIntStr valorStr)
  else
    match firstDigitRun valorStr with
    | some run =>
      let num := digitsToNat run
      if 1 ≤ num && num ≤ 45 then some (pyIntStr run) else some valorStr
    | none => some valorStr

/-- The requested-class-set normalization loop of `filtrar_por_classes`
(processador_inpi.py:364-379): each token contributes at most one entry. -/
def normalizarClassesDesejadas (cs : List String) : List String :=
  cs.flatMap fun c =>
    if pyStrip c = "" then []
    else
      let cStr := pyStrip c
      if isDigitString cStr then [pyIntStr cStr]
      else
        match firstDigitRun cStr with
        | some run =>
          let num := digitsToNat run
          if 1 ≤ num && num ≤ 45 then [pyIntStr run] else []
        | none => [cStr]

/-! ## Record set (spec §3 GrantedRecord; the dict built in
`_extrair_dados_processo_inpi`, all values strings) -/

structure Record where
  numero_processo : String
  marca : String
  classe : String
  titular : String
  procurador : String
  data_concessao : String
  status_classe : String
  especificacao : String
  traducao_especificacao : String
deriving DecidableEq, Repr

/-! ## Filter Engine -/

/-- `ProcessadorINPI.filtrar_por_classes` (processador_inpi.py:345-416) on a
record set whose class column is always present. `isin` against a list of
strings is false on a `None` normalized cell. -/
def filtrar_por_classes (df : List Record) (classesDesejadas : List String) :
    List Record :=
  if classesDesejadas.isEmpty then df
  else if df.isEmpty then df
  else
    let classesNormalizadas := normalizarClassesDesejadas classesDesejadas
    if classesNormalizadas.isEmpty then df
    else
      df.filter fun r =>
        match normalizar_valor_classe r.classe with
        | some v => classesNormalizadas.contains v
        | none => false

/-- `ProcessadorINPI.filtrar_por_palavras_chave` (processador_inpi.py:418-460).
The joined `re.escape`d alternation over lowered text is the "some keyword is
a substring" test; record cells are strings, so `fillna` is the identity. -/
def filtrar_por_palavras_chave (df : List Record) (palavrasChave : List String) :
    List Record :=
  if palavrasChave.isEmpty then df
  else if df.isEmpty then df
  else
    let palavrasLower :=
      (palavrasChave.filter fun p => !(pyStrip p == "")).map fun p =>
        pyStrip (pyLower p)
    if palavrasLower.isEmpty then df
    else
      df.filter fun r =>
        palavrasLower.any fun pal => strContains (pyLower r.especificacao) pal

/-- `ProcessadorINPI.filtrar_processos` (processador_inpi.py:462-495); the
absent (`None`) argument case behaves as the empty list. -/
def filtrar_processos (df : List Record) (classesDesejadas palavrasChave : List String) :
    List Record :=
  if df.isEmpty then df
  else
    let df1 :=
      if classesDesejadas.isEmpty then df
      else filtrar_por_classes df classesDesejadas
    if !classesDesejadas.isEmpty && df1.isEmpty then df1
    else if palavrasChave.isEmpty then df1
    else filtrar_por_palavras_chave df1 palavrasChave

/-! ## XML Record Extractor

The parsed gazette is modelled by the query results the source actually
reads from each `processo` element: attributes are `Option String` (absent
attribute = `none`), an optional child node together with its text is
`Option (Option String)` (outer = node present, inner = `.text`). The two
lookup paths for the mark name (`.//marca/nome`, then `.//marca` with a
`nome` child) resolve to the same node and are collapsed into one field. -/

structure Despacho where
  codigo : Option String
deriving DecidableEq, Repr

structure StatusNode where
  text : Option String
deriving DecidableEq, Repr

structure ClasseNice where
  codigo : Option String
  status : Option StatusNode
  especificacao : Option (Option String)
  traducao : Option (Option String)
deriving DecidableEq, Repr

structure Titular where
  nomeRazaoSocial : Option String
  text : Option String
deriving DecidableEq, Repr

structure Processo where
  numero : Option String
  dataConcessao : Option String
  dataConcessaoAlt : Option String
  titulares : List Titular
  marcaNome : Option (Option String)
  procurador : Option (Option String)
  despachos : List Despacho
  classesNice : List ClasseNice
deriving DecidableEq, Repr

/-- `marca if marca else 'N/A'` after the mark-name lookup
(processador_inpi.py:126-137, 171). -/
def procMarca (p : Processo) : String :=
  match p.marcaNome with
  | some (some m) => if m = "" then "N/A" else m
  | _ => "N/A"

/-- First-holder name with text fallback, then `titular if titular else 'N/A'`
(processador_inpi.py:117-124, 173). -/
def procTitular (p : Processo) : String :=
  match p.titulares with
  | [] => "N/A"
  | t :: _ =>
    let nome := t.nomeRazaoSocial.getD ""
    match (if nome = "" then t.text else some nome) with
    | some s => if s = "" then "N/A" else s
    | none => "N/A"

/-- `procurador if procurador else ''` (processador_inpi.py:140-143, 174). -/
def procProcurador (p : Processo) : String :=
  match p.procurador with
  | some (some s) => s
  | _ => ""

/-- `processo.get('data-concessao', processo.get('data_concessao', ''))`
(processador_inpi.py:114). -/
def procData (p : Processo) : String :=
  p.dataConcessao.getD (p.dataConcessaoAlt.getD "")

/-- Status text of a classification node, `''` standing for both a missing
`status` child and missing text. -/
def statusTexto (cn : ClasseNice) : String :=
  match cn.status with
  | some st => st.text.getD ""
  | none => ""

/-- Specification text, `especificacao if especificacao else ''`
(processador_inpi.py:159-162, 177). -/
def espTexto (cn : ClasseNice) : String :=
  match cn.especificacao with
  | some (some s) => s
  | _ => ""

/-- Translated specification text (processador_inpi.py:164-167, 178). -/
def tradTexto (cn : ClasseNice) : String :=
  match cn.traducao with
  | some (some s) => s
  | _ => ""

/-- The per-class dict built inside the loop of
`_extrair_dados_processo_inpi` (processador_inpi.py:169-179). -/
def recordDaClasse (p : Processo) (cn : ClasseNice) : Record :=
  { numero_processo := p.numero.getD ""
    marca := procMarca p
    classe := (fun cod => if cod = "" then "N/A" else cod) (cn.codigo.getD "")
    titular := procTitular p
    procurador := procProcurador p
    data_concessao := procData p
    status_classe := if statusTexto cn = "" then "Deferido" else statusTexto cn
    especificacao := espTexto cn
    traducao_especificacao := tradTexto cn }

/-- The per-class loop of `_extrair_dados_processo_inpi`
(processador_inpi.py:148-181): skip on missing `status` child, on falsy
status text, and on status text not containing `'deferid'` after
strip+lower. -/
def perClassRecords (p : Processo) : List Record :=
  p.classesNice.filterMap fun cn =>
    match cn.status with
    | none => none
    | some st =>
      match st.text with
      | none => none
      | some txt =>
        if txt = "" then none
        else if strContains (pyLower (pyStrip txt)) "deferid" then
          some (recordDaClasse p cn)
        else none

/-- The fallback dict of `_extrair_dados_processo_inpi`
(processador_inpi.py:185-195). -/
def fallbackRecord (p : Processo) : Record :=
  { numero_processo := p.numero.getD ""
    marca := procMarca p
    classe := "N/A"
    titular := procTitular p
    procurador := procProcurador p
    data_concessao := procData p
    status_classe := "Concedido"
    especificacao := ""
    traducao_especificacao := "" }

/-- `ProcessadorINPI._extrair_dados_processo_inpi` (processador_inpi.py:97-198):
per-class records, with the single fallback when the loop emitted nothing and
the process number is truthy. -/
def extrair_dados_processo_inpi (p : Processo) : List Record :=
  let pcs := perClassRecords p
  if pcs.isEmpty && !(p.numero.getD "" == "") then [fallbackRecord p] else pcs

/-- The grant test of `processar_xml` (processador_inpi.py:71-79): some
dispatch carries code exactly `IPAS158`. -/
def temConcessao (p : Processo) : Bool :=
  p.despachos.any fun d => d.codigo.getD "" == "IPAS158"

/-- Record rows of `ProcessadorINPI.processar_xml` (processador_inpi.py:69-92);
the gazette-number component of the returned pair is not modelled here. -/
def processar_xml (ps : List Processo) : List Record :=
  ps.flatMap fun p =>
    if temConcessao p then extrair_dados_processo_inpi p else []

/-- Spec §4.2 step 4 granted-class test, as one predicate: the status
sub-node exists, its text is non-empty, and the strip+lower text contains
`'deferid'`. -/
def classeDeferida (cn : ClasseNice) : Bool :=
  match cn.status with
  | some st =>
    match st.text with
    | some t => !(t == "") && strContains (pyLower (pyStrip t)) "deferid"
    | none => false
  | none => false

/-! ## Concrete fixtures (gazette fragments and records used as test inputs) -/

/-- Classification node with a code, a status text and no specification. -/
def mkClasse (cod st : String) : ClasseNice :=
  { codigo := some cod, status := some { text := some st },
    especificacao := none, traducao := none }

/-- Granted process (one `IPAS158` dispatch) with classes
`Deferida`, `Deferida`, `Indeferido`. -/
def procGrantIndef : Processo :=
  { numero := some "900000001", dataConcessao := none, dataConcessaoAlt := none,
    titulares := [], marcaNome := none, procurador := none,
    despachos := [{ codigo := some "IPAS158" }],
    classesNice :=
      [mkClasse "03" "Deferida", mkClasse "08" "Deferida",
       mkClasse "09" "Indeferido"] }

/-- Granted process with no `numero` attribute and no classification nodes. -/
def procGrantSemNumero : Processo :=
  { numero := none, dataConcessao := none, dataConcessaoAlt := none,
    titulares := [], marcaNome := none, procurador := none,
    despachos := [{ codigo := some "IPAS158" }], classesNice := [] }

/-- Granted process with a process number and no classification nodes. -/
def procGrantSemClasse : Processo :=
  { numero := some "900000002", dataConcessao := none, dataConcessaoAlt := none,
    titulares := [], marcaNome := none, procurador := none,
    despachos := [{ codigo := some "IPAS158" }], classesNice := [] }

/-- Process whose only dispatch code is lowercase `ipas158`, with a
`Deferida` classification node. -/
def procSemConcessao : Processo :=
  { numero := some "900000003", dataConcessao := none, dataConcessaoAlt := none,
    titulares := [], marcaNome := none, procurador := none,
    despachos := [{ codigo := some "ipas158" }],
    classesNice := [mkClasse "03" "Deferida"] }

/-- Record in class 3. -/
def recCosm : Record :=
  { numero_processo := "1", marca := "M1", classe := "3", titular := "T1",
    procurador := "", data_concessao := "", status_classe := "Deferida",
    especificacao := "sabonetes", traducao_especificacao := "" }

/-- Fallback-shaped record, class column `N/A`. -/
def recNA : Record :=
  { numero_processo := "2", marca := "M2", classe := "N/A", titular := "T2",
    procurador := "", data_concessao := "", status_classe := "Concedido",
    especificacao := "", traducao_especificacao := "" }

/-- Record whose specification text contains `ferramentas manuais`. -/
def recFerr : Record :=
  { numero_processo := "3", marca := "M3", classe := "8", titular := "T3",
    procurador := "", data_concessao := "", status_classe := "Deferida",
    especificacao := "Ferramentas manuais de jardinagem",
    traducao_especificacao := "" }

/-- Record whose specification text matches no stock keyword. -/
def recSemMatch : Record :=
  { numero_processo := "4", marca := "M4", classe := "9", titular := "T4",
    procurador := "", data_concessao := "", status_classe := "Deferida",
    especificacao := "abc", traducao_especificacao := "" }

/-! ## Helper lemmas -/

theorem dropWhile_dropWhile (p : α → Bool) (l : List α) :
    (l.dropWhile p).dropWhile p = l.dropWhile p := by
  induction l with
  | nil => rfl
  | cons a t ih =>
    by_cases h : p a
    · simp [List.dropWhile_cons, h, ih]
    · simp [List.dropWhile_cons, h]

theorem dropWhile_eq_self_of_head (p : α → Bool) (l : List α)
    (h : ∀ x, l.head? = some x → p x = false) : l.dropWhile p = l := by
  cases l with
  | nil => rfl
  | cons a t =>
    have ha := h a rfl
    simp [List.dropWhile_cons, ha]

theorem getLast?_dropWhile (p : α → Bool) (l : List α)
    (h : l.dropWhile p ≠ []) : (l.dropWhile p).getLast? = l.getLast? := by
  induction l with
  | nil => simp at h
  | cons a t ih =>
    by_cases ha : p a
    · rw [List.dropWhile_cons_of_pos ha] at h ⊢
      have ht : t ≠ [] := by
        intro he; rw [he] at h; simp at h
      rw [ih h]
      cases t with
      | nil => exact absurd rfl ht
      | cons b u => rw [List.getLast?_cons_cons]
    · rw [List.dropWhile_cons_of_neg ha]

theorem head?_pyStripL (p : List Char) :
    ∀ x, (pyStripL p).head? = some x → Char.isWhitespace x = false := by
  intro x hx
  unfold pyStripL at hx
  rw [List.head?_reverse] at hx
  set d := p.dropWhile Char.isWhitespace with hd
  set e := d.reverse.dropWhile Char.isWhitespace with he
  have hene : e ≠ [] := by
    intro h0; rw [h0] at hx; simp at hx
  have h1 : e.getLast? = d.reverse.getLast? := getLast?_dropWhile _ _ hene
  have hdne : d ≠ [] := by
    intro h0
    rw [h0] at he; simp at he
    exact hene he
  rw [List.getLast?_reverse] at h1
  rw [h1] at hx
  have := List.head?_dropWhile_not Char.isWhitespace p
  rw [← hd, hx] at this
  exact this

theorem pyStripL_idem (l : List Char) : pyStripL (pyStripL l) = pyStripL l := by
  have h1 : (pyStripL l).dropWhile Char.isWhitespace = pyStripL l :=
    dropWhile_eq_self_of_head _ _ (head?_pyStripL l)
  show ((((pyStripL l).dropWhile Char.isWhitespace).reverse).dropWhile
      Char.isWhitespace).reverse = pyStripL l
  rw [h1]
  unfold pyStripL
  rw [List.reverse_reverse, dropWhile_dropWhile]

theorem pyStrip_idem (s : String) : pyStrip (pyStrip s) = pyStrip s := by
  unfold pyStrip
  exact congrArg String.mk (pyStripL_idem s.data)

theorem dropWhile_eq_self_of_all (p : α → Bool) (l : List α)
    (h : ∀ x ∈ l, p x = false) : l.dropWhile p = l := by
  cases l with
  | nil => rfl
  | cons a t => simp [List.dropWhile_cons, h a (by simp)]

theorem digit_not_whitespace (c : Char) (h : c.isDigit = true) :
    c.isWhitespace = false := by
  cases hw : c.isWhitespace with
  | false => rfl
  | true =>
    exfalso
    simp only [Char.isWhitespace, Bool.or_eq_true, decide_eq_true_eq] at hw
    rcases hw with ((h1 | h1) | h1) | h1 <;> subst h1 <;> exact absurd h (by decide)

theorem pyStripL_of_digits (l : List Char) (h : l.all Char.isDigit = true) :
    pyStripL l = l := by
  have hws : ∀ x ∈ l, Char.isWhitespace x = false := by
    intro x hx
    exact digit_not_whitespace x (by
      have := List.all_eq_true.mp h x hx
      exact this)
  unfold pyStripL
  rw [dropWhile_eq_self_of_all _ _ hws,
      dropWhile_eq_self_of_all _ _ (by
        intro x hx
        exact hws x (List.mem_reverse.mp hx)),
      List.reverse_reverse]

theorem digit_toLower (c : Char) (h : c.isDigit = true) : c.toLower = c := by
  simp only [Char.isDigit, Bool.and_eq_true, decide_eq_true_eq] at h
  have h57 : c.val.toNat ≤ 57 := UInt32.toNat_le_of_le (by norm_num [UInt32.size]) h.2
  unfold Char.toLower
  have hn : Char.toNat c = c.val.toNat := rfl
  have hno : ¬ (Char.toNat c ≥ 65 ∧ Char.toNat c ≤ 90) := by
    intro hc
    rw [hn] at hc
    omega
  simp [hno]

theorem pyLower_of_digits (l : List Char) (h : l.all Char.isDigit = true) :
    pyLower ⟨l⟩ = ⟨l⟩ := by
  unfold pyLower
  apply congrArg String.mk
  show l.map Char.toLower = l
  have : l.map Char.toLower = l.map id :=
    List.map_congr_left fun c hc => digit_toLower c (List.all_eq_true.mp h c hc)
  rw [this, List.map_id]

theorem all_dropWhile (p q : α → Bool) (l : List α) (h : l.all q = true) :
    (l.dropWhile p).all q = true := by
  induction l with
  | nil => rfl
  | cons a t ih =>
    simp only [List.all_cons, Bool.and_eq_true] at h
    by_cases hp : p a
    · rw [List.dropWhile_cons_of_pos hp]
      exact ih h.2
    · rw [List.dropWhile_cons_of_neg hp]
      simp [h.1, h.2]

theorem stripZerosL_all_digits (l : List Char) (h : l.all Char.isDigit = true) :
    (stripZerosL l).all Char.isDigit = true := by
  unfold stripZerosL
  cases hd : l.dropWhile (fun c => c == '0') with
  | nil => decide
  | cons a t =>
    show (a :: t).all Char.isDigit = true
    rw [← hd]
    exact all_dropWhile _ _ _ h

theorem stripZerosL_ne_nil (l : List Char) : stripZerosL l ≠ [] := by
  unfold stripZerosL
  cases hd : l.dropWhile (fun c => c == '0') <;> simp

theorem stripZerosL_idem (l : List Char) :
    stripZerosL (stripZerosL l) = stripZerosL l := by
  unfold stripZerosL
  cases hd : l.dropWhile (fun c => c == '0') with
  | nil => decide
  | cons a t =>
    have hhd := List.head?_dropWhile_not (fun c => c == '0') l
    rw [hd] at hhd
    have ha : (a == '0') = false := hhd
    simp [List.dropWhile_cons, ha]

theorem firstRunL_digits (l r : List Char) (h : firstRunL l = some r) :
    isDigitStringL r = true := by
  induction l with
  | nil => exact absurd h (by simp [firstRunL])
  | cons c cs ih =>
    unfold firstRunL at h
    by_cases hc : c.isDigit
    · rw [if_pos hc] at h
      obtain rfl : c :: cs.takeWhile Char.isDigit = r := Option.some.inj h
      unfold isDigitStringL
      simp only [List.isEmpty_cons, Bool.not_false, Bool.true_and, List.all_cons,
        Bool.and_eq_true, hc, true_and]
      exact List.all_eq_true.mpr fun x hx => List.mem_takeWhile_imp hx
    · rw [if_neg hc] at h
      exact ih h

theorem isDigitStringL_stripZerosL (l : List Char) (h : l.all Char.isDigit = true) :
    isDigitStringL (stripZerosL l) = true := by
  unfold isDigitStringL
  rw [stripZerosL_all_digits l h]
  have := stripZerosL_ne_nil l
  simp [List.isEmpty_iff, this]

theorem isNullToken_of_digits (l : List Char) (h : isDigitStringL l = true) :
    isNullToken ⟨l⟩ = false := by
  unfold isDigitStringL at h
  simp only [Bool.and_eq_true, Bool.not_eq_true'] at h
  obtain ⟨h1, h2⟩ := h
  have hne : ∀ s : String, l ≠ s.data → ((⟨l⟩ : String) == s) = false := by
    intro s hs
    rw [beq_eq_false_iff_ne]
    intro he
    exact hs (congrArg String.data he)
  unfold isNullToken
  rw [pyLower_of_digits l h2]
  rw [hne "n/a" ?_, hne "nan" ?_, hne "none" ?_, hne "" ?_]
  · rfl
  · intro he
    rw [he] at h1
    exact absurd h1 (by decide)
  · intro he
    rw [he] at h2
    exact absurd h2 (by decide)
  · intro he
    rw [he] at h2
    exact absurd h2 (by decide)
  · intro he
    rw [he] at h2
    exact absurd h2 (by decide)

theorem pyStrip_of_digits (l : List Char) (h : l.all Char.isDigit = true) :
    pyStrip ⟨l⟩ = ⟨l⟩ := by
  unfold pyStrip
  apply congrArg String.mk
  show pyStripL l = l
  exact pyStripL_of_digits l h

theorem extrair_classe_digits_fix (l : List Char) (h : l.all Char.isDigit = true) :
    extrair_classe ⟨stripZerosL l⟩ = some ⟨stripZerosL l⟩ := by
  have hall : (stripZerosL l).all Char.isDigit = true := stripZerosL_all_digits l h
  have hdig : isDigitStringL (stripZerosL l) = true := isDigitStringL_stripZerosL l h
  have hstrip : pyStrip ⟨stripZerosL l⟩ = ⟨stripZerosL l⟩ := pyStrip_of_digits _ hall
  have hnull : isNullToken ⟨stripZerosL l⟩ = false := isNullToken_of_digits _ hdig
  have hfix : pyIntStr ⟨stripZerosL l⟩ = ⟨stripZerosL l⟩ := by
    unfold pyIntStr
    apply congrArg String.mk
    show stripZerosL (stripZerosL l) = stripZerosL l
    exact stripZerosL_idem l
  simp only [extrair_classe, hstrip, hnull, Bool.false_eq_true, if_false,
    isDigitString, hdig, if_true, hfix]

theorem string_mk_data (s : String) : String.mk s.data = s := by
  cases s
  rfl

theorem pyLower_eq_empty (s : String) (h : pyLower s = "") : s = "" := by
  have hd := congrArg String.data h
  have hnil : s.data.map Char.toLower = [] := hd
  have : s.data = [] := List.map_eq_nil_iff.mp hnil
  rw [← string_mk_data s, this]

theorem filterMap_guard_eq (q : α → Bool) (f : α → β) (l : List α) :
    l.filterMap (fun a => if q a then some (f a) else none) =
      (l.filter q).map f := by
  induction l with
  | nil => rfl
  | cons a t ih =>
    rw [List.filterMap_cons, List.filter_cons]
    by_cases hq : q a
    · simp [hq, ih]
    · simp [hq, ih]

theorem filterMap_congr_fn (f g : α → Option β) (l : List α)
    (h : ∀ a, f a = g a) : l.filterMap f = l.filterMap g := by
  rw [funext h]

theorem normalizarClassesDesejadas_nil_of (cs : List String)
    (h : ∀ c ∈ cs, pyStrip c = "" ∨
      (isDigitString (pyStrip c) = false ∧ ∃ r, firstDigitRun (pyStrip c) = some r ∧
        ¬(1 ≤ digitsToNat r ∧ digitsToNat r ≤ 45))) :
    normalizarClassesDesejadas cs = [] := by
  induction cs with
  | nil => rfl
  | cons c t ih =>
    have hc := h c (by simp)
    have ht : normalizarClassesDesejadas t = [] :=
      ih fun x hx => h x (by simp [hx])
    show normalizarClassesDesejadas (c :: t) = []
    unfold normalizarClassesDesejadas at ht ⊢
    rw [List.flatMap_cons, ht, List.append_nil]
    rcases hc with hb | ⟨hd, r, hr, hout⟩
    · simp [hb]
    · by_cases hb : pyStrip c = ""
      · simp [hb]
      · simp [hb, hd, hr, hout]

theorem isNullToken_false_of (c : String)
    (hs : ¬(pyLower (pyStrip c) = "n/a" ∨ pyLower (pyStrip c) = "nan" ∨
        pyLower (pyStrip c) = "none"))
    (hb : pyStrip c ≠ "") : isNullToken (pyStrip c) = false := by
  unfold isNullToken
  have h1 : (pyLower (pyStrip c) == "n/a") = false := by
    rw [beq_eq_false_iff_ne]
    intro h
    exact hs (Or.inl h)
  have h2 : (pyLower (pyStrip c) == "nan") = false := by
    rw [beq_eq_false_iff_ne]
    intro h
    exact hs (Or.inr (Or.inl h))
  have h3 : (pyLower (pyStrip c) == "none") = false := by
    rw [beq_eq_false_iff_ne]
    intro h
    exact hs (Or.inr (Or.inr h))
  have h4 : (pyLower (pyStrip c) == "") = false := by
    rw [beq_eq_false_iff_ne]
    intro h
    exact hb (pyLower_eq_empty _ h)
  rw [h1, h2, h3, h4]
  rfl

/-! ## Claim theorems -/

/-- Claim C1: the spec expects a process with one `IPAS158` dispatch and
classes `Deferida`, `Deferida`, `Indeferido` to yield exactly 2 records;
the code emits 3, because the lowercased status `indeferido` contains the
substring `deferid`, so the rejected class is also emitted — against the
source's own comment that only granted classes are kept. -/
theorem c1_indeferido_tambem_emitido :
    (processar_xml [procGrantIndef]).length = 3 ∧
    (processar_xml [procGrantIndef]).length ≠ 2 := by decide

/-- Claim C2 counterexample: the requested-set normalizer of
`filtrar_por_classes` is not identical to `normalizar_valor_classe`:
`n/a` is kept verbatim on the request side but maps to no value on the
column side, and `Cl. 99` is discarded on the request side but kept
unchanged on the column side. -/
theorem c2_normalizacao_identica_counterexample :
    normalizar_valor_classe "n/a" = none ∧
    normalizarClassesDesejadas ["n/a"] ≠ (normalizar_valor_classe "n/a").toList ∧
    normalizarClassesDesejadas ["Cl. 99"] ≠ (normalizar_valor_classe "Cl. 99").toList := by
  decide

/-- Claim C2 (amended): the requested-set normalization agrees with the
column normalizer on every token except the null sentinels (`n/a`, `nan`,
`none`, case-insensitive after trimming) and non-pure-digit tokens whose
first digit run is out of range [1,45]; in particular `3` matches
`Classe 03` in either direction. -/
theorem c2_normalizacao_identica_amended :
    (∀ c : String,
      ¬(pyLower (pyStrip c) = "n/a" ∨ pyLower (pyStrip c) = "nan" ∨
          pyLower (pyStrip c) = "none") →
      (∀ r : String, isDigitString (pyStrip c) = false →
        firstDigitRun (pyStrip c) = some r →
        1 ≤ digitsToNat r ∧ digitsToNat r ≤ 45) →
      normalizarClassesDesejadas [c] = (normalizar_valor_classe c).toList) ∧
    normalizar_valor_classe "Classe 03" = some "3" ∧
    normalizarClassesDesejadas ["3"] = ["3"] ∧
    normalizar_valor_classe "3" = some "3" ∧
    normalizarClassesDesejadas ["Classe 03"] = ["3"] := by
  refine ⟨?_, by decide, by decide, by decide, by decide⟩
  intro c hs hrange
  by_cases hb : pyStrip c = ""
  · have h1 : normalizarClassesDesejadas [c] = [] := by
      simp [normalizarClassesDesejadas, hb]
    have h2 : normalizar_valor_classe c = none := by
      simp only [normalizar_valor_classe, hb]
      decide
    rw [h1, h2]
    rfl
  · have hnull : isNullToken (pyStrip c) = false := isNullToken_false_of c hs hb
    by_cases hd : isDigitString (pyStrip c) = true
    · simp [normalizarClassesDesejadas, normalizar_valor_classe, hb, hnull, hd]
    · have hd' : isDigitString (pyStrip c) = false := by simpa using hd
      cases hr : firstDigitRun (pyStrip c) with
      | some r =>
        have hin := hrange r hd' hr
        simp [normalizarClassesDesejadas, normalizar_valor_classe, hb, hnull,
          hd', hr, hin]
      | none =>
        simp [normalizarClassesDesejadas, normalizar_valor_classe, hb, hnull,
          hd', hr]

/-- Claim C2 witness: the amended agreement instantiated at the
digit-free token `abc`. -/
theorem c2_normalizacao_identica_witness :
    normalizarClassesDesejadas ["abc"] = (normalizar_valor_classe "abc").toList := by
  apply c2_normalizacao_identica_amended.1 "abc"
  · decide
  · intro r hd hr
    exact absurd ((by decide : firstDigitRun (pyStrip "abc") = none).symm.trans hr)
      (by simp)

/-- Claim C3 counterexample: `n/a` normalizes to no value under the
column normalizer, yet filtering a one-row set by `["n/a"]` returns the
empty set, not the input unchanged. -/
theorem c3_fail_open_counterexample :
    normalizar_valor_classe "n/a" = none ∧
    filtrar_por_classes [recCosm] ["n/a"] = [] ∧
    ([recCosm] : List Record) ≠ [] := by decide

/-- Claim C3 (amended): the class filter fails open exactly on the tokens
the request-side normalization discards — blank-after-trim tokens and
non-pure-digit tokens whose first digit run is out of range [1,45]; a set
of only such members leaves the input unchanged. Null sentinels such as
`n/a` are not discarded on the request side and do not fail open. -/
theorem c3_fail_open_amended (df : List Record) (cs : List String)
    (h : ∀ c ∈ cs, pyStrip c = "" ∨
      (isDigitString (pyStrip c) = false ∧ ∃ r, firstDigitRun (pyStrip c) = some r ∧
        ¬(1 ≤ digitsToNat r ∧ digitsToNat r ≤ 45))) :
    filtrar_por_classes df cs = df := by
  have hnorm : normalizarClassesDesejadas cs = [] := normalizarClassesDesejadas_nil_of cs h
  unfold filtrar_por_classes
  by_cases h1 : cs.isEmpty
  · simp [h1]
  · by_cases h2 : df.isEmpty
    · simp [h1, h2]
    · simp [h1, h2, hnorm]

/-- Claim C3 witness: filtering by an out-of-range token and a blank token
leaves the one-row input unchanged. -/
theorem c3_fail_open_witness :
    filtrar_por_classes [recCosm] ["Cl. 99", "  "] = [recCosm] := by
  apply c3_fail_open_amended
  intro c hc
  simp only [List.mem_cons, List.not_mem_nil, or_false] at hc
  rcases hc with rfl | rfl
  · right
    exact ⟨by decide, "99", by decide, by decide⟩
  · left
    decide

/-- Claim C4 counterexample: a process carrying the grant dispatch but no
`numero` attribute and no classification nodes yields zero records, so a
grant indicator alone does not guarantee at least one record. -/
theorem c4_fallback_counterexample :
    temConcessao procGrantSemNumero = true ∧
    processar_xml [procGrantSemNumero] = [] := by decide

/-- Claim C4 (amended): every process with a grant indicator and a
non-empty process number yields at least one record; when the per-class
loop emitted nothing, exactly the one fallback record (class `N/A`,
status `Concedido`) is emitted, and the fallback appears only in that
case. -/
theorem c4_fallback_amended (p : Processo) (h1 : temConcessao p = true)
    (h2 : ¬(p.numero.getD "" = "")) :
    processar_xml [p] ≠ [] ∧
    (perClassRecords p = [] →
      processar_xml [p] = [fallbackRecord p] ∧
      (fallbackRecord p).classe = "N/A" ∧
      (fallbackRecord p).status_classe = "Concedido") ∧
    (perClassRecords p ≠ [] → processar_xml [p] = perClassRecords p) := by
  have hnum : (p.numero.getD "" == "") = false := beq_eq_false_iff_ne.mpr h2
  have hx : processar_xml [p] = extrair_dados_processo_inpi p := by
    simp [processar_xml, h1]
  by_cases hp : perClassRecords p = []
  · have he : extrair_dados_processo_inpi p = [fallbackRecord p] := by
      unfold extrair_dados_processo_inpi
      simp [hp, hnum]
    refine ⟨by rw [hx, he]; simp, fun _ => ⟨by rw [hx, he], rfl, rfl⟩,
      fun hc => absurd hp hc⟩
  · have he : extrair_dados_processo_inpi p = perClassRecords p := by
      unfold extrair_dados_processo_inpi
      have hie : (perClassRecords p).isEmpty = false := by
        cases hpc : perClassRecords p with
        | nil => exact absurd hpc hp
        | cons a t => rfl
      simp [hie]
    exact ⟨by rw [hx, he]; exact hp, fun hc => absurd hc hp, fun _ => by rw [hx, he]⟩

/-- Claim C4 witness: the granted, classless process with a process number
yields exactly the fallback record. -/
theorem c4_fallback_witness :
    processar_xml [procGrantSemClasse] = [fallbackRecord procGrantSemClasse] :=
  ((c4_fallback_amended procGrantSemClasse (by decide) (by decide)).2.1 (by decide)).1

/-- Claim C5: a process is granted iff some dispatch carries exactly
`IPAS158`; a non-granted process contributes zero records regardless of
its classification nodes; and the per-class records are exactly the
classification nodes whose status sub-node exists with non-empty text
containing `deferid` after strip+lower, in order — others are skipped
without error. -/
theorem c5_criterio_emissao (p : Processo) :
    (temConcessao p = true ↔ ∃ d ∈ p.despachos, d.codigo.getD "" = "IPAS158") ∧
    (temConcessao p = false → processar_xml [p] = []) ∧
    perClassRecords p = (p.classesNice.filter classeDeferida).map (recordDaClasse p) := by
  refine ⟨?_, ?_, ?_⟩
  · unfold temConcessao
    rw [List.any_eq_true]
    constructor
    · rintro ⟨d, hd, he⟩
      exact ⟨d, hd, by simpa using he⟩
    · rintro ⟨d, hd, he⟩
      exact ⟨d, hd, by simpa using he⟩
  · intro h
    simp [processar_xml, h]
  · unfold perClassRecords
    rw [filterMap_congr_fn _
      (fun cn => if classeDeferida cn then some (recordDaClasse p cn) else none) _ ?_]
    · exact filterMap_guard_eq classeDeferida (recordDaClasse p) p.classesNice
    · intro cn
      obtain ⟨cod, stat, esp, trad⟩ := cn
      cases stat with
      | none => rfl
      | some st =>
        obtain ⟨t⟩ := st
        cases t with
        | none => rfl
        | some txt =>
          by_cases he : txt = ""
          · subst he
            rfl
          · have hbe : (txt == "") = false := beq_eq_false_iff_ne.mpr he
            show (if txt = "" then none
                else if strContains (pyLower (pyStrip txt)) "deferid" then
                  some (recordDaClasse _ ⟨cod, some ⟨some txt⟩, esp, trad⟩)
                else none) =
              if classeDeferida ⟨cod, some ⟨some txt⟩, esp, trad⟩ then
                some (recordDaClasse _ ⟨cod, some ⟨some txt⟩, esp, trad⟩)
              else none
            unfold classeDeferida
            simp only [hbe, Bool.not_false, Bool.true_and, if_neg he]

/-- Claim C5 witness: the lowercase dispatch code `ipas158` does not count
as a grant (case-sensitive match), so the process contributes zero records
despite its `Deferida` class. -/
theorem c5_criterio_emissao_witness :
    temConcessao procSemConcessao = false ∧ processar_xml [procSemConcessao] = [] :=
  ⟨by decide, (c5_criterio_emissao procSemConcessao).2.1 (by decide)⟩

/-- Claim C6: the class normalizer maps pure-digit tokens to their
leading-zero-stripped form with no range check, maps null sentinels and
blanks to no value, returns the first digit run as a bare integer string
when it lies in [1,45], and otherwise returns the (stripped) input
unchanged; with the spec's concrete examples. -/
theorem c6_normalizador_classe :
    (∀ s : String, isNullToken (pyStrip s) = true → extrair_classe s = none) ∧
    (∀ s : String, isDigitString (pyStrip s) = true →
      extrair_classe s = some (pyIntStr (pyStrip s))) ∧
    (∀ s r : String, isNullToken (pyStrip s) = false →
      isDigitString (pyStrip s) = false → firstDigitRun (pyStrip s) = some r →
      1 ≤ digitsToNat r ∧ digitsToNat r ≤ 45 → extrair_classe s = some (pyIntStr r)) ∧
    (∀ s r : String, isNullToken (pyStrip s) = false →
      isDigitString (pyStrip s) = false → firstDigitRun (pyStrip s) = some r →
      ¬(1 ≤ digitsToNat r ∧ digitsToNat r ≤ 45) → extrair_classe s = some (pyStrip s)) ∧
    (∀ s : String, isNullToken (pyStrip s) = false →
      isDigitString (pyStrip s) = false → firstDigitRun (pyStrip s) = none →
      extrair_classe s = some (pyStrip s)) ∧
    extrair_classe "03" = some "3" ∧ extrair_classe "045" = some "45" ∧
    extrair_classe "00" = some "0" ∧ extrair_classe "99" = some "99" ∧
    extrair_classe "Classe 42" = some "42" ∧
    extrair_classe "Cl. 99" = some "Cl. 99" ∧
    extrair_classe "N/A" = none := by
  refine ⟨?_, ?_, ?_, ?_, ?_, by decide, by decide, by decide, by decide, by decide,
    by decide, by decide⟩
  · intro s h
    simp [extrair_classe, h]
  · intro s h
    have hnull : isNullToken (pyStrip s) = false := by
      rw [← string_mk_data (pyStrip s)]
      exact isNullToken_of_digits _ h
    simp [extrair_classe, hnull, h]
  · intro s r hnull hd hr hin
    simp [extrair_classe, hnull, hd, hr, hin]
  · intro s r hnull hd hr hout
    simp [extrair_classe, hnull, hd, hr, hout]
  · intro s hnull hd hr
    simp [extrair_classe, hnull, hd, hr]

/-- Claim C6 witness: the pure-digit clause instantiated at `007`. -/
theorem c6_normalizador_classe_witness :
    isDigitString (pyStrip "007") = true ∧
    extrair_classe "007" = some (pyIntStr (pyStrip "007")) :=
  ⟨by decide, c6_normalizador_classe.2.1 "007" (by decide)⟩

/-- Claim C7: the class normalizer is idempotent — renormalizing its
output (propagating a missing value) gives the same result. -/
theorem c7_normalizador_idempotente (s : String) :
    (extrair_classe s).bind extrair_classe = extrair_classe s := by
  by_cases h0 : isNullToken (pyStrip s) = true
  · simp [extrair_classe, h0]
  · have h0' : isNullToken (pyStrip s) = false := by simpa using h0
    by_cases h1 : isDigitString (pyStrip s) = true
    · have he : extrair_classe s = some (pyIntStr (pyStrip s)) := by
        simp [extrair_classe, h0', h1]
      rw [he, Option.some_bind]
      have hall : (pyStrip s).data.all Char.isDigit = true := by
        unfold isDigitString isDigitStringL at h1
        simp only [Bool.and_eq_true] at h1
        exact h1.2
      exact extrair_classe_digits_fix (pyStrip s).data hall
    · have h1' : isDigitString (pyStrip s) = false := by simpa using h1
      cases hr : firstDigitRun (pyStrip s) with
      | some run =>
        have hrun : isDigitStringL run.data = true := by
          unfold firstDigitRun at hr
          cases hfr : firstRunL (pyStrip s).data with
          | none =>
            rw [hfr] at hr
            exact absurd hr (by simp)
          | some rl =>
            rw [hfr] at hr
            simp only [Option.map_some'] at hr
            obtain rfl : (⟨rl⟩ : String) = run := Option.some.inj hr
            exact firstRunL_digits _ _ hfr
        by_cases hin : 1 ≤ digitsToNat run ∧ digitsToNat run ≤ 45
        · have he : extrair_classe s = some (pyIntStr run) := by
            simp [extrair_classe, h0', h1', hr, hin]
          rw [he, Option.some_bind]
          have hall : run.data.all Char.isDigit = true := by
            unfold isDigitStringL at hrun
            simp only [Bool.and_eq_true] at hrun
            exact hrun.2
          exact extrair_classe_digits_fix run.data hall
        · have he : extrair_classe s = some (pyStrip s) := by
            simp [extrair_classe, h0', h1', hr, hin]
          rw [he, Option.some_bind]
          simp [extrair_classe, pyStrip_idem, h0', h1', hr, hin]
      | none =>
        have he : extrair_classe s = some (pyStrip s) := by
          simp [extrair_classe, h0', h1', hr]
        rw [he, Option.some_bind]
        simp [extrair_classe, pyStrip_idem, h0', h1', hr]

/-- Claim C8 counterexample: with the keyword list `["", "ferramentas"]`,
the trimmed blank keyword is a substring of every specification, yet the
filter drops the row whose text matches no non-blank keyword — blanks are
discarded before matching, contrary to the claim's exact-row condition. -/
theorem c8_filtro_palavras_counterexample :
    strContains (pyLower recSemMatch.especificacao) (pyStrip (pyLower "")) = true ∧
    filtrar_por_palavras_chave [recSemMatch] ["", "ferramentas"] = [] ∧
    ([recSemMatch] : List Record) ≠ [] := by decide

/-- Claim C8 (amended): blank keywords are discarded first; when at least
one keyword survives, the filter keeps exactly the rows whose
specification text contains some surviving lowercased trimmed keyword as
a substring (no word boundary), e.g. `ferramentas` inside
`Ferramentas manuais de jardinagem`; when no keyword survives, all rows
are kept. -/
theorem c8_filtro_palavras_amended (df : List Record) (kws : List String) :
    (kws.filter (fun p => !(pyStrip p == "")) ≠ [] →
      filtrar_por_palavras_chave df kws =
        df.filter fun r =>
          ((kws.filter (fun p => !(pyStrip p == ""))).map (fun p =>
            pyStrip (pyLower p))).any fun k => strContains (pyLower r.especificacao) k) ∧
    (kws.filter (fun p => !(pyStrip p == "")) = [] →
      filtrar_por_palavras_chave df kws = df) ∧
    strContains (pyLower "Ferramentas manuais de jardinagem")
      (pyStrip (pyLower "ferramentas")) = true := by
  refine ⟨?_, ?_, by decide⟩
  · intro h
    have hkw : kws ≠ [] := by
      intro he
      rw [he] at h
      exact h rfl
    have hke : kws.isEmpty = false := by
      cases kws with
      | nil => exact absurd rfl hkw
      | cons a t => rfl
    have hme : ((kws.filter (fun p => !(pyStrip p == ""))).map (fun p =>
        pyStrip (pyLower p))).isEmpty = false := by
      cases hf : kws.filter (fun p => !(pyStrip p == "")) with
      | nil => exact absurd hf h
      | cons a t => rfl
    by_cases hdf : df.isEmpty
    · have hdn : df = [] := by
        cases df with
        | nil => rfl
        | cons r t => exact absurd hdf (by simp)
      subst hdn
      simp [filtrar_por_palavras_chave]
    · unfold filtrar_por_palavras_chave
      rw [if_neg (by simp [hke]), if_neg (by simp [hdf])]
      rw [if_neg (by simp [hme])]
  · intro h0
    simp [filtrar_por_palavras_chave, h0]

/-- Claim C8 witness: the substring match keeps the
`Ferramentas manuais` row for keyword `ferramentas`, and an all-blank
keyword list keeps every row. -/
theorem c8_filtro_palavras_witness :
    filtrar_por_palavras_chave [recFerr] ["ferramentas"] = [recFerr] ∧
    filtrar_por_palavras_chave [recFerr] ["", "  "] = [recFerr] := by
  constructor
  · rw [(c8_filtro_palavras_amended [recFerr] ["ferramentas"]).1 (by decide)]
    decide
  · exact (c8_filtro_palavras_amended [recFerr] ["", "  "]).2.1 (by decide)

/-- Claim C9: the combined filter applies the class filter first and the
keyword filter to its output; a non-empty class set whose class step
yields zero rows short-circuits to the empty result; and with both sets
empty the input comes back unchanged in order. -/
theorem c9_filtro_combinado (df : List Record) (cs kws : List String) :
    (cs = [] → kws = [] → filtrar_processos df cs kws = df) ∧
    (cs ≠ [] → filtrar_por_classes df cs = [] → filtrar_processos df cs kws = []) ∧
    (cs ≠ [] → filtrar_processos df cs kws =
      filtrar_por_palavras_chave (filtrar_por_classes df cs) kws) := by
  refine ⟨?_, ?_, ?_⟩
  · rintro rfl rfl
    unfold filtrar_processos
    cases df with
    | nil => rfl
    | cons r t => simp
  · intro hcs he
    cases df with
    | nil => rfl
    | cons r rs =>
      cases cs with
      | nil => exact absurd rfl hcs
      | cons c ct =>
        unfold filtrar_processos
        simp [he]
  · intro hcs
    cases cs with
    | nil => exact absurd rfl hcs
    | cons c ct =>
      cases df with
      | nil =>
        unfold filtrar_processos filtrar_por_classes filtrar_por_palavras_chave
        cases kws <;> simp
      | cons r rs =>
        unfold filtrar_processos
        by_cases h1 : filtrar_por_classes (r :: rs) (c :: ct) = []
        · rw [h1]
          unfold filtrar_por_palavras_chave
          cases kws <;> simp [h1]
        · have h1e : (filtrar_por_classes (r :: rs) (c :: ct)).isEmpty = false := by
            cases hf : filtrar_por_classes (r :: rs) (c :: ct) with
            | nil => exact absurd hf h1
            | cons a t => rfl
          cases kws with
          | nil => simp [h1e, filtrar_por_palavras_chave]
          | cons k kt => simp [h1e]

/-- Claim C9 witness: the short-circuit conjunct instantiated where the
class step empties the row set. -/
theorem c9_filtro_combinado_witness :
    filtrar_processos [recCosm] ["7"] ["ferramentas"] = [] :=
  (c9_filtro_combinado [recCosm] ["7"] ["ferramentas"]).2.1 (by decide) (by decide)

/-- Claim C10: when the requested class set is non-empty after
normalization, every surviving row's class value normalizes to a value;
in particular no `N/A` fallback row survives an active class filter. -/
theorem c10_na_excluido (df : List Record) (cs : List String)
    (h : normalizarClassesDesejadas cs ≠ []) :
    ∀ r ∈ filtrar_por_classes df cs,
      normalizar_valor_classe r.classe ≠ none ∧ r.classe ≠ "N/A" := by
  intro r hr
  have hcs : cs ≠ [] := by
    intro he
    rw [he] at h
    exact h rfl
  have hne : (normalizarClassesDesejadas cs).isEmpty = false := by
    cases hf : normalizarClassesDesejadas cs with
    | nil => exact absurd hf h
    | cons a t => rfl
  cases cs with
  | nil => exact absurd rfl hcs
  | cons c ct =>
    cases df with
    | nil =>
      unfold filtrar_por_classes at hr
      simp at hr
    | cons d ds =>
      unfold filtrar_por_classes at hr
      rw [if_neg (by simp), if_neg (by simp), if_neg (by simp [hne])] at hr
      have hp := (List.mem_filter.mp hr).2
      cases hm : normalizar_valor_classe r.classe with
      | none =>
        rw [hm] at hp
        exact absurd hp (by simp)
      | some v =>
        refine ⟨by simp [hm], ?_⟩
        intro hNA
        have hNAv : normalizar_valor_classe "N/A" = none := by decide
        rw [hNA, hNAv] at hm
        exact Option.noConfusion hm

/-- Claim C10 witness: the kept class-3 row of a two-row set (the other
row being an `N/A` fallback) has a normalizable, non-`N/A` class. -/
theorem c10_na_excluido_witness :
    normalizar_valor_classe recCosm.classe ≠ none ∧ recCosm.classe ≠ "N/A" :=
  c10_na_excluido [recCosm, recNA] ["3"] (by decide) recCosm (by decide)

end RevistaInpi
